import Mathlib

/-!
# Verification of the file-monitoring system (file_sorter_app.py)

A shallow embedding of the watch–dispatch–move–archive pipeline of
`src/file_sorter_app.py`.  The filesystem is modelled as the list of paths
that exist (`os.path.exists` is membership); the fallible library calls
(`shutil.move`, `shutil.copy2`, `os.makedirs`) are driven by failure
oracles carried in a `World` record, so that the try/except structure of
the source can be expressed with `Except` and total functions.
-/

/-- Model of `posixpath.splitext` on the character list of a path.
`r` below is the reversed path; the extension is the final dot-suffix of the
last path component, unless every character of that component before the
last dot is itself a dot (so dotfiles like `.gitignore` split to no
extension), or the last dot lies before the last `/`. -/
def splitextData (p : List Char) : List Char × List Char :=
  let r := p.reverse
  let r1 := r.takeWhile (fun c => c ≠ '.')
  if ('/' : Char) ∈ r1 then (p, [])
  else
    match r.dropWhile (fun c => c ≠ '.') with
    | [] => (p, [])
    | _ :: r2 =>
      if (r2.takeWhile (fun c => c ≠ '/')).any (fun c => c ≠ '.') then
        (r2.reverse, '.' :: r1.reverse)
      else (p, [])

/-- Model of `os.path.splitext` (posix). -/
def splitext (p : String) : String × String :=
  ((splitextData p.data).1.asString, (splitextData p.data).2.asString)

/-- Model of `os.path.join` (posix, two arguments): the second component
wins if absolute, otherwise a single separator is inserted unless the first
component is empty or already ends in a separator. -/
def joinPath (a b : String) : String :=
  if b.data.head? = some '/' then b
  else if a.data = [] ∨ a.data.getLast? = some '/' then a ++ b
  else a ++ "/" ++ b

/-- Model of `os.path.basename` (posix): everything after the last `/`. -/
def basename (p : String) : String :=
  ((p.data.reverse.takeWhile (fun c => c ≠ '/')).reverse).asString

/-- Creating a path in the existing-path snapshot: a set-like insert
(creating a path that already exists, or overwriting a file, leaves the
set of existing paths with no duplicate). -/
def insertPath (l : List String) (p : String) : List String :=
  if p ∈ l then l else l ++ [p]

/-- The loop of `get_unique_filename`, fuel-indexed.  One unit of fuel is
spent per `os.path.exists` probe that comes back positive; the wrapper
supplies `paths.length + 1` units, which is proved sufficient below
(`get_unique_filename_spec`). -/
def uniqueLoop (paths : List String) (dest_dir base ext : String) :
    Nat → String → Nat → String
  | 0, dest_path, _ => dest_path
  | fuel + 1, dest_path, counter =>
    if dest_path ∈ paths then
      uniqueLoop paths dest_dir base ext fuel
        (joinPath dest_dir (base ++ " " ++ toString counter ++ ext)) (counter + 1)
    else dest_path

/-- Model of `get_unique_filename(dest_dir, filename)`: starting from
`dest_dir/filename`, append a counter starting at 1 to the stem while the
candidate path exists. -/
def get_unique_filename (paths : List String) (dest_dir filename : String) : String :=
  let be := splitext filename
  uniqueLoop paths dest_dir be.1 be.2 (paths.length + 1) (joinPath dest_dir filename) 1

/-- The sequence of candidate paths probed by `get_unique_filename`:
candidate 0 is `dest_dir/filename`, candidate `k+1` is
`dest_dir/<base> <k+1><ext>`. -/
def cand (dest_dir filename base ext : String) : Nat → String
  | 0 => joinPath dest_dir filename
  | k + 1 => joinPath dest_dir (base ++ " " ++ toString (k + 1) ++ ext)

/-- Log levels of the `logging` calls in the source. -/
inductive LogLevel where
  | info
  | warning
  | error
deriving DecidableEq, Repr

/-- One emitted log record. -/
structure LogEntry where
  level : LogLevel
  msg : String
deriving DecidableEq, Repr

/-- The environment a dispatch runs in: the snapshot of existing paths,
the current date (for `datetime.now().strftime`), file modification times
(for the metadata preserved by `shutil.copy2` / `shutil.move`), and
failure oracles deciding which library calls raise. -/
structure World where
  paths : List String
  year : Nat
  month : Nat
  day : Nat
  mtime : String → Nat
  mkdirFails : String → Bool
  copyFails : String → String → Bool
  moveFails : String → String → Bool

/-- Zero-padding to two digits, as in `strftime` fields `%m`, `%d`. -/
def pad2 (n : Nat) : String := if n < 10 then "0" ++ toString n else toString n

/-- Zero-padding to four digits, as in the `strftime` field `%Y`. -/
def pad4 (n : Nat) : String :=
  if n < 10 then "000" ++ toString n
  else if n < 100 then "00" ++ toString n
  else if n < 1000 then "0" ++ toString n
  else toString n

/-- Model of `datetime.now().strftime("%Y-%m-%d")`. -/
def strftimeYmd (y m d : Nat) : String := pad4 y ++ "-" ++ pad2 m ++ "-" ++ pad2 d

/-- The date folder name a world's current date produces. -/
def dateFolder (w : World) : String := strftimeYmd w.year w.month w.day

/-- Result of a completed (non-raising) `archive_file` call. -/
structure ArchResult where
  world : World
  logs : List LogEntry

/-- Model of `archive_file(dest_path, archive_dir)`.  `os.makedirs` runs
BEFORE the try block, so its failure escapes as `Except.error`; the
`shutil.copy2` failure is caught inside and only logged. -/
def archive_file (w : World) (dest_path archive_dir : String) :
    Except String ArchResult :=
  let archive_path := joinPath archive_dir (dateFolder w)
  if w.mkdirFails archive_path then
    Except.error "OSError in os.makedirs"
  else
    let w1 : World := { w with paths := insertPath w.paths archive_path }
    if w1.copyFails dest_path archive_path then
      Except.ok { world := w1,
                  logs := [{ level := LogLevel.error, msg := "Error archiving file" }] }
    else
      let target := joinPath archive_path (basename dest_path)
      let w2 : World := { w1 with
        paths := insertPath w1.paths target,
        mtime := fun p => if p = target then w1.mtime dest_path else w1.mtime p }
      Except.ok { world := w2,
                  logs := [{ level := LogLevel.info, msg := "Archived" }] }

/-- Model of `str.lower()` (on the ASCII range relevant to extensions):
lowercase every character. -/
def strToLower (s : String) : String := String.mk (s.data.map Char.toLower)

/-- The extension lookup done by `move_file`: the lowercased final
dot-suffix of the source path, looked up in the extension map. -/
def classify (ext_map : List (String × String)) (src_path : String) : Option String :=
  List.lookup (strToLower (splitext src_path).2) ext_map

/-- Result of a `move_file` call: the world after it, the log records it
emitted, and the `(file, archive_dir)` argument pairs of its
`archive_file` invocations. -/
structure MoveResult where
  world : World
  logs : List LogEntry
  archiveCalls : List (String × String)

/-- Model of `move_file(src_path, base_dir, ext_map, sorted_dir_name,
archive_dir_name)`.  Unsupported extensions return after a warning; the
try block covers name resolution, `shutil.move` and the `archive_file`
call, so any exception from those (including one escaping
`archive_file`) is caught and logged as a move error. -/
def move_file (w : World) (src_path base_dir : String)
    (ext_map : List (String × String)) (sorted_dir_name archive_dir_name : String) :
    MoveResult :=
  let sorted_dir := joinPath base_dir sorted_dir_name
  let archive_dir := joinPath base_dir archive_dir_name
  match classify ext_map src_path with
  | none =>
    { world := w,
      logs := [{ level := LogLevel.warning, msg := "Unknown / unsupported file type" }],
      archiveCalls := [] }
  | some category =>
    let dest_dir := joinPath sorted_dir category
    let filename := basename src_path
    let final_dest := get_unique_filename w.paths dest_dir filename
    if w.moveFails src_path final_dest then
      { world := w,
        logs := [{ level := LogLevel.error, msg := "Error moving file" }],
        archiveCalls := [] }
    else
      let w1 : World := { w with
        paths := insertPath (w.paths.erase src_path) final_dest,
        mtime := fun p => if p = final_dest then w.mtime src_path else w.mtime p }
      match archive_file w1 final_dest archive_dir with
      | Except.error _ =>
        { world := w1,
          logs := [{ level := LogLevel.info, msg := "Moved" },
                   { level := LogLevel.error, msg := "Error moving file" }],
          archiveCalls := [(final_dest, archive_dir)] }
      | Except.ok r =>
        { world := r.world,
          logs := [{ level := LogLevel.info, msg := "Moved" }] ++ r.logs,
          archiveCalls := [(final_dest, archive_dir)] }

/-- The configuration record loaded from `config.json`. -/
structure Config where
  incoming_directory : String
  sorted_directory : String
  archive_directory : String
  extensions : List (String × String)

/-- One `watchdog` `Observer` object: the path it is scheduled on and
whether its thread is running. -/
structure ObserverRec where
  watched : String
  alive : Bool
deriving DecidableEq, Repr

/-- The mutable state of `FileSorterApp`: every `Observer` object ever
constructed (Python object semantics: reassigning `self.observer` does not
stop the old observer thread), the index the `self.observer` reference
currently points at, the selected base directory, and the two button
states. -/
structure AppState where
  heap : List ObserverRec
  observer : Option Nat
  base_dir : Option String
  startEnabled : Bool
  stopEnabled : Bool
deriving DecidableEq, Repr

/-- Python truthiness test `not self.base_dir`: true for `None` and for
the empty string. -/
def optFalsey : Option String → Bool
  | none => true
  | some s => s = ""

/-- Model of `FileSorterApp.prepare_directories`: `os.makedirs` with
`exist_ok=True` on the three top-level folders and on one sorted
subfolder per distinct extension-map value. -/
def prepare_directories (cfg : Config) (base_dir : String) (paths : List String) :
    List String :=
  let incoming := joinPath base_dir cfg.incoming_directory
  let sorted_dir := joinPath base_dir cfg.sorted_directory
  let archive_dir := joinPath base_dir cfg.archive_directory
  let paths3 := insertPath (insertPath (insertPath paths incoming) sorted_dir) archive_dir
  ((cfg.extensions.map Prod.snd).dedup).foldl
    (fun ps folder_name => insertPath ps (joinPath sorted_dir folder_name)) paths3

/-- Model of `FileSorterApp.start_monitoring`: reject (warning, no state
change) when no base directory is selected; otherwise construct, schedule
and start a fresh `Observer` on the incoming folder and point
`self.observer` at it, flipping the button states. -/
def start_monitoring (cfg : Config) (s : AppState) : AppState × List LogEntry :=
  if optFalsey s.base_dir then
    (s, [{ level := LogLevel.warning,
           msg := "No base directory selected. Cannot start monitoring." }])
  else
    let b := s.base_dir.getD ""
    let incoming := joinPath b cfg.incoming_directory
    ({ s with
        heap := s.heap ++ [{ watched := incoming, alive := true }],
        observer := some s.heap.length,
        startEnabled := false,
        stopEnabled := true }, [])

/-- Model of `FileSorterApp.stop_monitoring`: if an observer is
referenced, stop and join it and clear the reference; in every case flip
the button states. -/
def stop_monitoring (s : AppState) : AppState :=
  let s1 :=
    match s.observer with
    | some i =>
      { s with
          heap := s.heap.set i { watched := ((s.heap.getD i ⟨"", false⟩)).watched,
                                 alive := false },
          observer := none }
    | none => s
  { s1 with startEnabled := true, stopEnabled := false }

/-- Decimal reading of a digit string, inverse to Nat.toDigits 10. -/
def readDigits (l : List Char) : Nat := l.foldl (fun a c => 10 * a + (c.toNat - 48)) 0

/-- The raw name strings probed by the loop, before joining with the
destination directory. -/
def argStr (f b e : String) : Nat → String
  | 0 => f
  | k + 1 => b ++ " " ++ toString (k + 1) ++ e

/-- The final destination path a dispatch resolves via PathNaming. -/
def finalDest (w : World) (src base_dir sd cat : String) : String :=
  get_unique_filename w.paths (joinPath (joinPath base_dir sd) cat) (basename src)


/-- A concrete failure-free world used to instantiate theorems. -/
def wOk : World :=
  { paths := ["/b/in/photo.jpg", "/b/in/notes.txt", "/b/in/.gitignore"],
    year := 2026, month := 10, day := 12,
    mtime := fun _ => 0, mkdirFails := fun _ => false,
    copyFails := fun _ _ => false, moveFails := fun _ _ => false }

/-- A world in which every `shutil.move` raises. -/
def wMoveFail : World := { wOk with moveFails := fun _ _ => true }

/-- A world in which every `os.makedirs` raises. -/
def wMkdirFail : World := { wOk with mkdirFails := fun _ => true }

/-- A world in which every `shutil.copy2` raises. -/
def wCopyFail : World := { wOk with copyFails := fun _ _ => true }

/-- A concrete configuration mirroring the scenario of the specification. -/
def cfgEx : Config :=
  { incoming_directory := "in", sorted_directory := "sorted",
    archive_directory := "archive", extensions := [(".jpg", "images")] }

/-- A stopped application state with a base directory selected. -/
def appStopped : AppState :=
  { heap := [], observer := none, base_dir := some "/base",
    startEnabled := true, stopEnabled := false }

/-- The state after one successful start: monitoring is running. -/
def appRunning : AppState := (start_monitoring cfgEx appStopped).1

/-- The initial application state: nothing selected yet. -/
def appNoBase : AppState :=
  { heap := [], observer := none, base_dir := none,
    startEnabled := false, stopEnabled := false }

theorem toDigitsCore_ten_append (fuel : Nat) :
    ∀ (n : Nat) (ds : List Char),
      Nat.toDigitsCore 10 fuel n ds = Nat.toDigitsCore 10 fuel n [] ++ ds := by
  induction fuel with
  | zero => intro n ds; simp [Nat.toDigitsCore]
  | succ f ih =>
    intro n ds
    simp only [Nat.toDigitsCore]
    by_cases h : n / 10 = 0
    · simp [h]
    · simp only [h, if_false]
      rw [ih (n / 10) ((n % 10).digitChar :: ds), ih (n / 10) [(n % 10).digitChar]]
      simp

theorem toDigitsCore_ten_fuel (f1 : Nat) :
    ∀ (f2 n : Nat) (ds : List Char), n < f1 → n < f2 →
      Nat.toDigitsCore 10 f1 n ds = Nat.toDigitsCore 10 f2 n ds := by
  induction f1 with
  | zero => intro f2 n ds h1 _; omega
  | succ f ih =>
    intro f2 n ds h1 h2
    match f2, h2 with
    | g + 1, _ =>
      simp only [Nat.toDigitsCore]
      by_cases h : n / 10 = 0
      · simp [h]
      · simp only [h, if_false]
        have hlt : n / 10 < n := Nat.div_lt_self (by omega) (by omega)
        apply ih
        · omega
        · omega

theorem digitChar_toNat_sub (m : Nat) (h : m < 10) : (Nat.digitChar m).toNat - 48 = m := by
  revert m h; decide

theorem readDigits_toDigits (n : Nat) : readDigits (Nat.toDigits 10 n) = n := by
  induction n using Nat.strong_induction_on with
  | _ n ih =>
    show readDigits (Nat.toDigitsCore 10 (n + 1) n []) = n
    simp only [Nat.toDigitsCore]
    by_cases h : n / 10 = 0
    · simp only [h, if_true]
      have h10 : n < 10 := by omega
      show 10 * 0 + ((Nat.digitChar (n % 10)).toNat - 48) = n
      rw [Nat.mod_eq_of_lt h10, digitChar_toNat_sub n h10]; omega
    · simp only [h, if_false]
      have hpos : 0 < n := by
        rcases Nat.eq_zero_or_pos n with h0 | h0
        · exfalso; rw [h0] at h; simp at h
        · exact h0
      have hlt : n / 10 < n := Nat.div_lt_self hpos (by omega)
      rw [toDigitsCore_ten_append n (n / 10) [(n % 10).digitChar]]
      rw [toDigitsCore_ten_fuel n (n / 10 + 1) (n / 10) [] hlt (Nat.lt_succ_self _)]
      show readDigits (Nat.toDigits 10 (n / 10) ++ [(n % 10).digitChar]) = n
      unfold readDigits
      rw [List.foldl_append]
      show 10 * readDigits (Nat.toDigits 10 (n / 10)) + ((Nat.digitChar (n % 10)).toNat - 48) = n
      rw [ih (n / 10) hlt, digitChar_toNat_sub (n % 10) (Nat.mod_lt n (by omega))]
      omega

theorem natToString_injective (a b : Nat) (h : toString a = toString b) : a = b := by
  have hd : Nat.toDigits 10 a = Nat.toDigits 10 b := by
    have := congrArg String.data h
    simpa [toString, Nat.repr, List.asString] using this
  calc a = readDigits (Nat.toDigits 10 a) := (readDigits_toDigits a).symm
    _ = readDigits (Nat.toDigits 10 b) := by rw [hd]
    _ = b := readDigits_toDigits b

theorem head_dropWhile_ne {α : Type} {p : α → Bool} :
    ∀ (l : List α) (c : α) (r2 : List α), l.dropWhile p = c :: r2 → p c = false := by
  intro l
  induction l with
  | nil => intro c r2 h; simp [List.dropWhile] at h
  | cons a l ih =>
    intro c r2 h
    by_cases ha : p a
    · rw [List.dropWhile_cons_of_pos ha] at h; exact ih c r2 h
    · rw [List.dropWhile_cons_of_neg ha] at h
      cases h; simpa using ha

theorem splitextData_append (p : List Char) :
    (splitextData p).1 ++ (splitextData p).2 = p := by
  simp only [splitextData]
  split
  · simp
  · split
    · simp
    · next c r2 heq =>
      have hc : c = '.' := by simpa using head_dropWhile_ne _ c r2 heq
      have hr := List.takeWhile_append_dropWhile (fun c => decide (c ≠ '.')) p.reverse
      rw [heq] at hr
      split
      · show r2.reverse ++ ('.' :: (p.reverse.takeWhile (fun c => decide (c ≠ '.'))).reverse) = p
        have h3 := congrArg List.reverse hr
        simp only [List.reverse_append, List.reverse_cons, List.reverse_reverse,
          List.append_assoc, List.singleton_append] at h3
        rw [hc] at h3
        exact h3
      · simp

theorem splitext_append (f : String) : (splitext f).1 ++ (splitext f).2 = f := by
  apply String.ext
  rw [String.data_append]
  show (splitextData f.data).1 ++ (splitextData f.data).2 = f.data
  exact splitextData_append f.data

theorem splitext_snd_head (f : String) :
    (splitext f).2.data.head? = none ∨ (splitext f).2.data.head? = some '.' := by
  show (splitextData f.data).2.head? = none ∨ (splitextData f.data).2.head? = some '.'
  simp only [splitextData]
  split
  · simp
  · split
    · simp
    · split
      · simp
      · simp

theorem strAppend_cancel_left {a s t : String} (h : a ++ s = a ++ t) : s = t := by
  apply String.ext
  have h2 := congrArg String.data h
  rw [String.data_append, String.data_append] at h2
  exact List.append_cancel_left h2

theorem strAppend_cancel_right {s t e : String} (h : s ++ e = t ++ e) : s = t := by
  apply String.ext
  have h2 := congrArg String.data h
  rw [String.data_append, String.data_append] at h2
  exact List.append_cancel_right h2

theorem cand_eq_joinPath (d f b e : String) (k : Nat) :
    cand d f b e k = joinPath d (argStr f b e k) := by
  cases k <;> rfl

theorem argStr_head_slash_iff (f b e : String) (hbe : b ++ e = f)
    (he : e.data.head? = none ∨ e.data.head? = some '.') (k : Nat) :
    ((argStr f b e k).data.head? = some '/') ↔ (b.data.head? = some '/') := by
  cases k with
  | zero =>
    show (f.data.head? = some '/') ↔ _
    rw [← hbe, String.data_append]
    cases hb : b.data with
    | nil =>
      simp only [List.nil_append, List.head?_nil]
      constructor
      · intro h; rcases he with h1 | h1 <;> rw [h1] at h <;> simp at h
      · intro h; simp at h
    | cons a l => simp
  | succ k =>
    show ((b ++ " " ++ toString (k + 1) ++ e).data.head? = some '/') ↔ _
    rw [String.data_append, String.data_append, String.data_append]
    cases hb : b.data with
    | nil =>
      have hsp : (" " : String).data = [' '] := rfl
      simp [hsp]
    | cons a l => simp

theorem joinPath_inj_aux (d s t : String)
    (hs : (s.data.head? = some '/') ↔ (t.data.head? = some '/'))
    (h : joinPath d s = joinPath d t) : s = t := by
  unfold joinPath at h
  by_cases h1 : s.data.head? = some '/'
  · rw [if_pos h1, if_pos (hs.mp h1)] at h
    exact h
  · rw [if_neg h1, if_neg (fun hh => h1 (hs.mpr hh))] at h
    by_cases h3 : d.data = [] ∨ d.data.getLast? = some '/'
    · rw [if_pos h3, if_pos h3] at h
      exact strAppend_cancel_left h
    · rw [if_neg h3, if_neg h3] at h
      exact strAppend_cancel_left h

theorem argStr_inj (f b e : String) (hbe : b ++ e = f) :
    ∀ j k : Nat, argStr f b e j = argStr f b e k → j = k := by
  have key : ∀ k : Nat, b ++ e ≠ b ++ " " ++ toString (k + 1) ++ e := by
    intro k h
    have h1 : b = (b ++ " ") ++ toString (k + 1) := strAppend_cancel_right h
    have h2 := congrArg (fun s => s.data.length) h1
    simp only [String.data_append, List.length_append, List.length_cons,
      List.length_nil] at h2
    omega
  intro j k
  match j, k with
  | 0, 0 => intro _; rfl
  | 0, k + 1 =>
    intro h
    exact absurd (by rw [hbe]; exact h) (key k)
  | j + 1, 0 =>
    intro h
    exact absurd (by rw [hbe]; exact h.symm) (key j)
  | j + 1, k + 1 =>
    intro h
    have h1 : (b ++ " ") ++ toString (j + 1) = (b ++ " ") ++ toString (k + 1) :=
      strAppend_cancel_right h
    have h2 := strAppend_cancel_left h1
    have h4 := natToString_injective _ _ h2
    omega

theorem cand_inj (d f b e : String) (hbe : b ++ e = f)
    (he : e.data.head? = none ∨ e.data.head? = some '.') :
    Function.Injective (cand d f b e) := by
  intro j k h
  rw [cand_eq_joinPath, cand_eq_joinPath] at h
  refine argStr_inj f b e hbe j k (joinPath_inj_aux d _ _ ?_ h)
  exact (argStr_head_slash_iff f b e hbe he j).trans
    (argStr_head_slash_iff f b e hbe he k).symm

theorem cand_exists_avail (paths : List String) (d f b e : String)
    (hbe : b ++ e = f) (he : e.data.head? = none ∨ e.data.head? = some '.') :
    ∃ j, j ≤ paths.length ∧ cand d f b e j ∉ paths := by
  by_contra hcon
  push_neg at hcon
  have hsub : (Finset.range (paths.length + 1)).image (cand d f b e) ⊆ paths.toFinset := by
    intro x hx
    rw [Finset.mem_image] at hx
    obtain ⟨j, hj, rfl⟩ := hx
    rw [List.mem_toFinset]
    exact hcon j (Nat.lt_succ_iff.mp (Finset.mem_range.mp hj))
  have h1 := Finset.card_le_card hsub
  rw [Finset.card_image_of_injective _ (cand_inj d f b e hbe he), Finset.card_range] at h1
  have h2 := paths.toFinset_card_le
  omega

theorem uniqueLoop_spec (paths : List String) (d f b e : String) :
    ∀ (fuel c : Nat),
      (∃ j, j < fuel ∧ cand d f b e (c + j) ∉ paths) →
      ∃ j, j < fuel ∧
        uniqueLoop paths d b e fuel (cand d f b e c) (c + 1) = cand d f b e (c + j) ∧
        cand d f b e (c + j) ∉ paths ∧
        ∀ i, i < j → cand d f b e (c + i) ∈ paths := by
  intro fuel
  induction fuel with
  | zero =>
    intro c hex
    obtain ⟨j, hj, _⟩ := hex
    omega
  | succ fuel ih =>
    intro c hex
    by_cases hc : cand d f b e c ∈ paths
    · obtain ⟨j0, hj0, hnm⟩ := hex
      have hj0' : j0 ≠ 0 := by
        rintro rfl
        simp only [Nat.add_zero] at hnm
        exact hnm hc
      obtain ⟨j1, rfl⟩ : ∃ j1, j0 = j1 + 1 := ⟨j0 - 1, by omega⟩
      have hex' : ∃ j, j < fuel ∧ cand d f b e ((c + 1) + j) ∉ paths := by
        refine ⟨j1, by omega, ?_⟩
        have harr : (c + 1) + j1 = c + (j1 + 1) := by omega
        rw [harr]
        exact hnm
      obtain ⟨j, hj, heq, hnm2, hmem⟩ := ih (c + 1) hex'
      refine ⟨j + 1, by omega, ?_, ?_, ?_⟩
      · rw [show uniqueLoop paths d b e (fuel + 1) (cand d f b e c) (c + 1)
              = uniqueLoop paths d b e fuel
                  (joinPath d (b ++ " " ++ toString (c + 1) ++ e)) (c + 1 + 1) from by
          simp only [uniqueLoop, hc, if_true]]
        rw [show joinPath d (b ++ " " ++ toString (c + 1) ++ e)
              = cand d f b e (c + 1) from rfl]
        rw [heq]
        congr 1
        omega
      · have harr : c + (j + 1) = (c + 1) + j := by omega
        rw [harr]
        exact hnm2
      · intro i hi
        cases i with
        | zero => simpa using hc
        | succ i' =>
          have harr : c + (i' + 1) = (c + 1) + i' := by omega
          rw [harr]
          exact hmem i' (by omega)
    · refine ⟨0, by omega, ?_, ?_, ?_⟩
      · simp only [Nat.add_zero]
        simp only [uniqueLoop, hc, if_false]
      · simpa using hc
      · intro i hi
        omega

theorem get_unique_filename_spec (paths : List String) (d f : String) :
    ∃ j, j ≤ paths.length ∧
      get_unique_filename paths d f = cand d f (splitext f).1 (splitext f).2 j ∧
      cand d f (splitext f).1 (splitext f).2 j ∉ paths ∧
      ∀ i, i < j → cand d f (splitext f).1 (splitext f).2 i ∈ paths := by
  obtain ⟨j0, hj0, hnm⟩ := cand_exists_avail paths d f (splitext f).1 (splitext f).2
    (splitext_append f) (splitext_snd_head f)
  have hex : ∃ j, j < paths.length + 1 ∧
      cand d f (splitext f).1 (splitext f).2 (0 + j) ∉ paths :=
    ⟨j0, by omega, by simpa using hnm⟩
  obtain ⟨j, hj, heq, hnm2, hmem⟩ :=
    uniqueLoop_spec paths d f (splitext f).1 (splitext f).2 (paths.length + 1) 0 hex
  refine ⟨j, by omega, ?_, by simpa using hnm2, fun i hi => by simpa using hmem i hi⟩
  show uniqueLoop paths d (splitext f).1 (splitext f).2 (paths.length + 1)
      (joinPath d f) 1 = _
  rw [show joinPath d f = cand d f (splitext f).1 (splitext f).2 0 from rfl]
  simpa using heq

theorem insertPath_mem {l : List String} {p : String} (h : p ∈ l) : insertPath l p = l := by
  simp [insertPath, h]

theorem self_mem_insertPath (l : List String) (p : String) : p ∈ insertPath l p := by
  by_cases h : p ∈ l <;> simp [insertPath, h]

theorem mem_insertPath (l : List String) (p q : String) (h : q ∈ l) : q ∈ insertPath l p := by
  by_cases h2 : p ∈ l <;> simp [insertPath, h2, h]

theorem insertPath_nodup (l : List String) (p : String) (h : l.Nodup) :
    (insertPath l p).Nodup := by
  by_cases h2 : p ∈ l
  · simpa [insertPath, h2] using h
  · simp [insertPath, h2, List.nodup_append, h]

theorem foldl_insertPath_mono {α : Type} (g : α → String) :
    ∀ (l : List α) (ps : List String) (q : String), q ∈ ps →
      q ∈ l.foldl (fun a n => insertPath a (g n)) ps := by
  intro l
  induction l with
  | nil => intro ps q h; exact h
  | cons x xs ih => intro ps q h; exact ih _ _ (mem_insertPath _ _ _ h)

theorem foldl_insertPath_mem {α : Type} (g : α → String) :
    ∀ (l : List α) (ps : List String) (x : α), x ∈ l →
      g x ∈ l.foldl (fun a n => insertPath a (g n)) ps := by
  intro l
  induction l with
  | nil => intro ps x h; simp at h
  | cons y ys ih =>
    intro ps x h
    rcases List.mem_cons.mp h with h1 | h1
    · subst h1
      exact foldl_insertPath_mono g ys _ _ (self_mem_insertPath _ _)
    · exact ih _ x h1

theorem foldl_insertPath_nodup {α : Type} (g : α → String) :
    ∀ (l : List α) (ps : List String), ps.Nodup →
      (l.foldl (fun a n => insertPath a (g n)) ps).Nodup := by
  intro l
  induction l with
  | nil => intro ps h; exact h
  | cons x xs ih => intro ps h; exact ih _ (insertPath_nodup _ _ h)

theorem foldl_insertPath_noop {α : Type} (g : α → String) :
    ∀ (l : List α) (ps : List String), (∀ x ∈ l, g x ∈ ps) →
      l.foldl (fun a n => insertPath a (g n)) ps = ps := by
  intro l
  induction l with
  | nil => intro ps _; rfl
  | cons y ys ih =>
    intro ps h
    show ys.foldl _ (insertPath ps (g y)) = ps
    rw [insertPath_mem (h y (List.mem_cons_self y ys))]
    exact ih ps (fun x hx => h x (List.mem_cons_of_mem y hx))

theorem move_file_skip (w : World) (src base_dir : String)
    (m : List (String × String)) (sd ad : String)
    (h : classify m src = none) :
    move_file w src base_dir m sd ad =
      { world := w,
        logs := [{ level := LogLevel.warning, msg := "Unknown / unsupported file type" }],
        archiveCalls := [] } := by
  simp only [move_file, h]

theorem move_file_moveFail (w : World) (src base_dir : String)
    (m : List (String × String)) (sd ad cat : String)
    (hc : classify m src = some cat)
    (hf : w.moveFails src (finalDest w src base_dir sd cat) = true) :
    move_file w src base_dir m sd ad =
      { world := w,
        logs := [{ level := LogLevel.error, msg := "Error moving file" }],
        archiveCalls := [] } := by
  simp only [finalDest] at hf
  simp only [move_file, hc, hf, if_true]

theorem move_file_success_calls (w : World) (src base_dir : String)
    (m : List (String × String)) (sd ad cat : String)
    (hc : classify m src = some cat)
    (hf : w.moveFails src (finalDest w src base_dir sd cat) = false) :
    (move_file w src base_dir m sd ad).archiveCalls =
      [(finalDest w src base_dir sd cat, joinPath base_dir ad)] := by
  simp only [finalDest] at hf ⊢
  simp only [move_file, hc, hf, Bool.false_eq_true, if_false]
  split <;> rfl

theorem archive_file_ok (w : World) (dest adir : String)
    (hmk : w.mkdirFails (joinPath adir (dateFolder w)) = false)
    (hcp : w.copyFails dest (joinPath adir (dateFolder w)) = false) :
    archive_file w dest adir = Except.ok
      { world :=
          { w with
            paths := insertPath (insertPath w.paths (joinPath adir (dateFolder w)))
              (joinPath (joinPath adir (dateFolder w)) (basename dest)),
            mtime := fun p =>
              if p = joinPath (joinPath adir (dateFolder w)) (basename dest)
              then w.mtime dest else w.mtime p },
        logs := [{ level := LogLevel.info, msg := "Archived" }] } := by
  simp only [archive_file, hmk, Bool.false_eq_true, if_false, hcp]

theorem archive_file_copyFail (w : World) (dest adir : String)
    (hmk : w.mkdirFails (joinPath adir (dateFolder w)) = false)
    (hcp : w.copyFails dest (joinPath adir (dateFolder w)) = true) :
    archive_file w dest adir = Except.ok
      { world := { w with paths := insertPath w.paths (joinPath adir (dateFolder w)) },
        logs := [{ level := LogLevel.error, msg := "Error archiving file" }] } := by
  simp only [archive_file, hmk, Bool.false_eq_true, if_false, hcp, if_true]

theorem move_file_archiveCalls_le_one (w : World) (src base_dir : String)
    (m : List (String × String)) (sd ad : String) :
    ((move_file w src base_dir m sd ad).archiveCalls).length ≤ 1 := by
  simp only [move_file]
  split
  · simp
  · split
    · simp
    · split <;> simp

theorem move_file_catches_archive_escape (w : World) (src base_dir : String)
    (m : List (String × String)) (sd ad cat : String)
    (hc : classify m src = some cat)
    (hf : w.moveFails src (finalDest w src base_dir sd cat) = false)
    (hmk : w.mkdirFails (joinPath (joinPath base_dir ad) (dateFolder w)) = true) :
    (move_file w src base_dir m sd ad).logs =
      [{ level := LogLevel.info, msg := "Moved" },
       { level := LogLevel.error, msg := "Error moving file" }] := by
  simp only [finalDest] at hf
  simp only [dateFolder] at hmk
  simp only [move_file, hc, hf, Bool.false_eq_true, if_false, archive_file, dateFolder, hmk,
    if_true]

theorem start_monitoring_no_base (cfg : Config) (s : AppState)
    (h : optFalsey s.base_dir = true) :
    start_monitoring cfg s =
      (s, [{ level := LogLevel.warning,
             msg := "No base directory selected. Cannot start monitoring." }]) := by
  simp only [start_monitoring, h, if_true]

theorem start_monitoring_runs (cfg : Config) (s : AppState)
    (h : optFalsey s.base_dir = false) :
    (start_monitoring cfg s).1.observer = some s.heap.length ∧
    (start_monitoring cfg s).1.heap =
      s.heap ++ [{ watched := joinPath (s.base_dir.getD "") cfg.incoming_directory,
                   alive := true }] ∧
    (start_monitoring cfg s).2 = [] := by
  simp only [start_monitoring, h, Bool.false_eq_true, if_false]
  exact ⟨trivial, trivial, trivial⟩

theorem stop_monitoring_running (s : AppState) (i : Nat) (h : s.observer = some i) :
    (stop_monitoring s).observer = none ∧
    (stop_monitoring s).heap =
      s.heap.set i { watched := ((s.heap.getD i ⟨"", false⟩)).watched, alive := false } := by
  simp only [stop_monitoring, h]
  exact ⟨trivial, trivial⟩

theorem stop_monitoring_stopped (s : AppState) (h : s.observer = none) :
    (stop_monitoring s).heap = s.heap ∧ (stop_monitoring s).observer = none := by
  simp only [stop_monitoring, h]
  exact ⟨trivial, trivial⟩

theorem prepare_directories_idem (cfg : Config) (base_dir : String) (paths : List String) :
    prepare_directories cfg base_dir (prepare_directories cfg base_dir paths) =
      prepare_directories cfg base_dir paths := by
  have hmem : ∀ q : String,
      q ∈ insertPath (insertPath (insertPath paths (joinPath base_dir cfg.incoming_directory))
            (joinPath base_dir cfg.sorted_directory)) (joinPath base_dir cfg.archive_directory) →
      q ∈ prepare_directories cfg base_dir paths := by
    intro q hq
    exact foldl_insertPath_mono _ _ _ _ hq
  have hinc : joinPath base_dir cfg.incoming_directory ∈ prepare_directories cfg base_dir paths :=
    hmem _ (mem_insertPath _ _ _ (mem_insertPath _ _ _ (self_mem_insertPath _ _)))
  have hsrt : joinPath base_dir cfg.sorted_directory ∈ prepare_directories cfg base_dir paths :=
    hmem _ (mem_insertPath _ _ _ (self_mem_insertPath _ _))
  have harc : joinPath base_dir cfg.archive_directory ∈ prepare_directories cfg base_dir paths :=
    hmem _ (self_mem_insertPath _ _)
  have hcat : ∀ v ∈ (cfg.extensions.map Prod.snd).dedup,
      joinPath (joinPath base_dir cfg.sorted_directory) v ∈
        prepare_directories cfg base_dir paths := by
    intro v hv
    exact foldl_insertPath_mem _ _ _ v hv
  show ((cfg.extensions.map Prod.snd).dedup).foldl
      (fun ps folder_name =>
        insertPath ps (joinPath (joinPath base_dir cfg.sorted_directory) folder_name))
      (insertPath (insertPath (insertPath (prepare_directories cfg base_dir paths)
        (joinPath base_dir cfg.incoming_directory)) (joinPath base_dir cfg.sorted_directory))
        (joinPath base_dir cfg.archive_directory)) = prepare_directories cfg base_dir paths
  rw [insertPath_mem hinc, insertPath_mem hsrt, insertPath_mem harc]
  exact foldl_insertPath_noop _ _ _ hcat

theorem prepare_directories_nodup (cfg : Config) (base_dir : String) (paths : List String)
    (h : paths.Nodup) : (prepare_directories cfg base_dir paths).Nodup :=
  foldl_insertPath_nodup _ _ _
    (insertPath_nodup _ _ (insertPath_nodup _ _ (insertPath_nodup _ _ h)))

theorem prepare_directories_mem_cat (cfg : Config) (base_dir : String) (paths : List String)
    (v : String) (hv : v ∈ cfg.extensions.map Prod.snd) :
    joinPath (joinPath base_dir cfg.sorted_directory) v ∈
      prepare_directories cfg base_dir paths :=
  foldl_insertPath_mem _ _ _ v (List.mem_dedup.mpr hv)

theorem archive_file_idem_paths (w : World) (dest adir : String)
    (hmk : w.mkdirFails (joinPath adir (dateFolder w)) = false)
    (hcp : w.copyFails dest (joinPath adir (dateFolder w)) = false)
    (hself : joinPath adir (dateFolder w) ∈ w.paths)
    (htgt : joinPath (joinPath adir (dateFolder w)) (basename dest) ∈ w.paths) :
    ∃ r, archive_file w dest adir = Except.ok r ∧ r.world.paths = w.paths := by
  refine ⟨_, archive_file_ok w dest adir hmk hcp, ?_⟩
  show insertPath (insertPath w.paths (joinPath adir (dateFolder w)))
      (joinPath (joinPath adir (dateFolder w)) (basename dest)) = w.paths
  rw [insertPath_mem hself, insertPath_mem htgt]

/-- C1: resolving a unique name implements the collision law.  In general
the returned path is the first free candidate of the probe sequence
(candidate 0 the plain name, candidate k the name with counter k): the
counter starts at 1, every earlier candidate is occupied (no occupied
slot is skipped, no occupied name reused), and the returned path does not
exist in the snapshot.  Concretely, with `report.txt` present resolution
yields `report 1.txt`; with `report.txt` and `report 1.txt` present it
yields `report 2.txt`; with nothing present the plain name is kept. -/
theorem get_unique_filename_collision_law :
    (∀ (paths : List String) (d f : String),
      ∃ j, j ≤ paths.length ∧
        get_unique_filename paths d f = cand d f (splitext f).1 (splitext f).2 j ∧
        cand d f (splitext f).1 (splitext f).2 j ∉ paths ∧
        ∀ i, i < j → cand d f (splitext f).1 (splitext f).2 i ∈ paths) ∧
    get_unique_filename ["dest/report.txt"] "dest" "report.txt" = "dest/report 1.txt" ∧
    get_unique_filename ["dest/report.txt", "dest/report 1.txt"] "dest" "report.txt" =
      "dest/report 2.txt" ∧
    get_unique_filename [] "dest" "report.txt" = "dest/report.txt" :=
  ⟨get_unique_filename_spec, by decide, by decide, by decide⟩

/-- Witness for C1: the collision law applied at the concrete two-file
snapshot of the specification scenario. -/
theorem get_unique_filename_collision_law_witness :
    get_unique_filename ["dest/report.txt", "dest/report 1.txt"] "dest" "report.txt" =
      "dest/report 2.txt" :=
  get_unique_filename_collision_law.2.2.1

/-- C2: when the lowercased extension of the source path is not a key of
the extension map, dispatch logs one warning and returns: the world (and
so the file at its source path) is unchanged, no archive call is made,
and, the function being total, no exception is raised. -/
theorem move_file_unsupported_no_change (w : World) (src base_dir : String)
    (m : List (String × String)) (sd ad : String)
    (h : List.lookup (strToLower (splitext src).2) m = none) :
    move_file w src base_dir m sd ad =
      { world := w,
        logs := [{ level := LogLevel.warning, msg := "Unknown / unsupported file type" }],
        archiveCalls := [] } :=
  move_file_skip w src base_dir m sd ad h

/-- Witness for C2: a `.txt` file with a jpg-only extension map. -/
theorem move_file_unsupported_no_change_witness :
    move_file wOk "/b/in/notes.txt" "/b" [(".jpg", "images")] "sorted" "archive" =
      { world := wOk,
        logs := [{ level := LogLevel.warning, msg := "Unknown / unsupported file type" }],
        archiveCalls := [] } :=
  move_file_unsupported_no_change wOk "/b/in/notes.txt" "/b" [(".jpg", "images")]
    "sorted" "archive" (by decide)

/-- C3: when the move of the file to the resolved destination fails, the
failure is caught and logged at error level and dispatch returns with the
world unchanged and the Archiver not called; the function is total, so
nothing propagates and the pipeline can continue. -/
theorem move_file_move_failure_isolated (w : World) (src base_dir : String)
    (m : List (String × String)) (sd ad cat : String)
    (hc : classify m src = some cat)
    (hf : w.moveFails src (finalDest w src base_dir sd cat) = true) :
    move_file w src base_dir m sd ad =
      { world := w,
        logs := [{ level := LogLevel.error, msg := "Error moving file" }],
        archiveCalls := [] } :=
  move_file_moveFail w src base_dir m sd ad cat hc hf

/-- Witness for C3: a supported file whose move raises. -/
theorem move_file_move_failure_isolated_witness :
    move_file wMoveFail "/b/in/photo.jpg" "/b" [(".jpg", "images")] "sorted" "archive" =
      { world := wMoveFail,
        logs := [{ level := LogLevel.error, msg := "Error moving file" }],
        archiveCalls := [] } :=
  move_file_move_failure_isolated wMoveFail "/b/in/photo.jpg" "/b" [(".jpg", "images")]
    "sorted" "archive" "images" (by decide) rfl

/-- C4: when the move succeeds, the Archiver is invoked exactly once, and
its file argument is the final destination resolved by the unique-name
computation (not the original source path), paired with the archive
directory. -/
theorem move_file_archives_final_destination (w : World) (src base_dir : String)
    (m : List (String × String)) (sd ad cat : String)
    (hc : classify m src = some cat)
    (hf : w.moveFails src (finalDest w src base_dir sd cat) = false) :
    (move_file w src base_dir m sd ad).archiveCalls =
      [(finalDest w src base_dir sd cat, joinPath base_dir ad)] ∧
    ((move_file w src base_dir m sd ad).archiveCalls).length = 1 :=
  ⟨move_file_success_calls w src base_dir m sd ad cat hc hf, by
    rw [move_file_success_calls w src base_dir m sd ad cat hc hf]; rfl⟩

/-- Witness for C4: a successful dispatch of a supported file. -/
theorem move_file_archives_final_destination_witness :
    (move_file wOk "/b/in/photo.jpg" "/b" [(".jpg", "images")] "sorted" "archive").archiveCalls =
      [(finalDest wOk "/b/in/photo.jpg" "/b" "sorted" "images", joinPath "/b" "archive")] ∧
    ((move_file wOk "/b/in/photo.jpg" "/b" [(".jpg", "images")] "sorted"
      "archive").archiveCalls).length = 1 :=
  move_file_archives_final_destination wOk "/b/in/photo.jpg" "/b" [(".jpg", "images")]
    "sorted" "archive" "images" (by decide) rfl

/-- C5 counterexample: in a world where `os.makedirs` raises, a failure
inside the Archiver — creating the date-partition directory — is NOT
caught by the Archiver: `archive_file` propagates the exception to its
caller (the `os.makedirs` call sits before the try block in the source). -/
theorem archive_mkdir_failure_escapes :
    archive_file wMkdirFail "/b/sorted/images/photo.jpg" "/b/archive" =
      Except.error "OSError in os.makedirs" := rfl

/-- C5 (amended): failures of the copy step inside the Archiver are
caught and logged at error level and do not propagate; archiving is never
retried (at most one archive call per dispatch); and a failure creating
the date-partition directory, though it escapes the Archiver itself, is
caught by the dispatcher's try/except, so archiving never aborts the
dispatch pipeline. -/
theorem archive_failures_contained :
    (∀ (w : World) (dest adir : String),
      w.mkdirFails (joinPath adir (dateFolder w)) = false →
      w.copyFails dest (joinPath adir (dateFolder w)) = true →
      archive_file w dest adir = Except.ok
        { world := { w with paths := insertPath w.paths (joinPath adir (dateFolder w)) },
          logs := [{ level := LogLevel.error, msg := "Error archiving file" }] }) ∧
    (∀ (w : World) (src base_dir : String) (m : List (String × String)) (sd ad : String),
      ((move_file w src base_dir m sd ad).archiveCalls).length ≤ 1) ∧
    (∀ (w : World) (src base_dir : String) (m : List (String × String)) (sd ad cat : String),
      classify m src = some cat →
      w.moveFails src (finalDest w src base_dir sd cat) = false →
      w.mkdirFails (joinPath (joinPath base_dir ad) (dateFolder w)) = true →
      (move_file w src base_dir m sd ad).logs =
        [{ level := LogLevel.info, msg := "Moved" },
         { level := LogLevel.error, msg := "Error moving file" }]) :=
  ⟨archive_file_copyFail, move_file_archiveCalls_le_one, move_file_catches_archive_escape⟩

/-- Witness for C5 (amended): a failing copy is absorbed with an error
log, and a failing date-directory creation is absorbed by the dispatcher. -/
theorem archive_failures_contained_witness :
    archive_file wCopyFail "/b/sorted/images/photo.jpg" "/b/archive" = Except.ok
      { world := { wCopyFail with
          paths := insertPath wCopyFail.paths (joinPath "/b/archive" (dateFolder wCopyFail)) },
        logs := [{ level := LogLevel.error, msg := "Error archiving file" }] } ∧
    (move_file wMkdirFail "/b/in/photo.jpg" "/b" [(".jpg", "images")] "sorted" "archive").logs =
      [{ level := LogLevel.info, msg := "Moved" },
       { level := LogLevel.error, msg := "Error moving file" }] :=
  ⟨archive_failures_contained.1 wCopyFail "/b/sorted/images/photo.jpg" "/b/archive" rfl rfl,
   archive_failures_contained.2.2 wMkdirFail "/b/in/photo.jpg" "/b" [(".jpg", "images")]
     "sorted" "archive" "images" (by decide) rfl rfl⟩

/-- C6: archiving places the copy in the date-partition subdirectory
(named from the current date in zero-padded YYYY-MM-DD form) of the
archive root, created idempotently; the copy keeps the original filename
with its modification time preserved; no collision renaming is applied,
so a second archive of the same filename on the same day changes nothing
in the set of existing paths (last writer wins). -/
theorem archive_file_dated_copy (w : World) (dest adir : String)
    (hmk : w.mkdirFails (joinPath adir (dateFolder w)) = false)
    (hcp : w.copyFails dest (joinPath adir (dateFolder w)) = false) :
    dateFolder w = pad4 w.year ++ "-" ++ pad2 w.month ++ "-" ++ pad2 w.day ∧
    ∃ r, archive_file w dest adir = Except.ok r ∧
      r.world.paths = insertPath (insertPath w.paths (joinPath adir (dateFolder w)))
        (joinPath (joinPath adir (dateFolder w)) (basename dest)) ∧
      r.world.mtime (joinPath (joinPath adir (dateFolder w)) (basename dest)) =
        w.mtime dest ∧
      r.logs = [{ level := LogLevel.info, msg := "Archived" }] ∧
      ∃ r2, archive_file r.world dest adir = Except.ok r2 ∧
        r2.world.paths = r.world.paths := by
  refine ⟨rfl, _, archive_file_ok w dest adir hmk hcp, rfl, ?_, rfl, ?_⟩
  · simp
  · exact archive_file_idem_paths _ dest adir hmk hcp
      (mem_insertPath _ _ _ (self_mem_insertPath _ _))
      (self_mem_insertPath _ _)

/-- Witness for C6: archiving a concrete photo in the failure-free world;
the date folder of that world reads 2026-10-12. -/
theorem archive_file_dated_copy_witness :
    dateFolder wOk = "2026-10-12" ∧
    (∃ r, archive_file wOk "/b/sorted/images/photo.jpg" "/b/archive" = Except.ok r) := by
  obtain ⟨hd, r, he, _⟩ :=
    archive_file_dated_copy wOk "/b/sorted/images/photo.jpg" "/b/archive" rfl rfl
  exact ⟨by decide, ⟨r, he⟩⟩

/-- C7: calling start with no base directory selected (the Python-falsey
cases None and the empty string) reports a warning and returns with the
state unchanged: no observer is constructed or scheduled, monitoring does
not start silently. -/
theorem start_monitoring_rejects_unselected (cfg : Config) (s : AppState)
    (h : optFalsey s.base_dir = true) :
    start_monitoring cfg s =
      (s, [{ level := LogLevel.warning,
             msg := "No base directory selected. Cannot start monitoring." }]) :=
  start_monitoring_no_base cfg s h

/-- Witness for C7: the initial state with no directory selected. -/
theorem start_monitoring_rejects_unselected_witness :
    start_monitoring cfgEx appNoBase =
      (appNoBase, [{ level := LogLevel.warning,
                     msg := "No base directory selected. Cannot start monitoring." }]) :=
  start_monitoring_rejects_unselected cfgEx appNoBase rfl

/-- C8 counterexample: calling start on an already-Running instance is
neither a no-op (the state changes) nor an error (no log is emitted):
it silently constructs and starts a second observer, leaving two alive
watchers on the heap.  The claimed start-is-no-op-or-error law fails. -/
theorem start_on_running_second_watcher :
    ((start_monitoring cfgEx appRunning).1 ≠ appRunning) ∧
    (start_monitoring cfgEx appRunning).2 = [] ∧
    ((start_monitoring cfgEx appRunning).1.heap.countP (fun o => o.alive)) = 2 := by
  decide

/-- C8 (amended): the lifecycle follows Stopped, start, Running, stop,
Stopped — start (with a base directory selected) appends a fresh alive
observer and points the reference at it; stop on Running stops the
referenced observer and clears the reference; stop on Stopped leaves the
observer state unchanged.  However start on an already-Running instance
is not a no-op or an error: it silently starts one more observer (only
the UI's disabled button prevents this). -/
theorem watch_lifecycle_behavior :
    (∀ (cfg : Config) (s : AppState), optFalsey s.base_dir = false →
      (start_monitoring cfg s).1.observer = some s.heap.length ∧
      (start_monitoring cfg s).1.heap =
        s.heap ++ [{ watched := joinPath (s.base_dir.getD "") cfg.incoming_directory,
                     alive := true }] ∧
      (start_monitoring cfg s).2 = []) ∧
    (∀ (s : AppState) (i : Nat), s.observer = some i →
      (stop_monitoring s).observer = none ∧
      (stop_monitoring s).heap =
        s.heap.set i { watched := ((s.heap.getD i ⟨"", false⟩)).watched, alive := false }) ∧
    (∀ s : AppState, s.observer = none →
      (stop_monitoring s).heap = s.heap ∧ (stop_monitoring s).observer = none) :=
  ⟨start_monitoring_runs, stop_monitoring_running, stop_monitoring_stopped⟩

/-- Witness for C8 (amended): one full start/stop cycle on concrete
states, and a stop on the Stopped initial state. -/
theorem watch_lifecycle_behavior_witness :
    (start_monitoring cfgEx appStopped).1.observer = some 0 ∧
    (stop_monitoring appRunning).observer = none ∧
    (stop_monitoring appNoBase).heap = appNoBase.heap := by
  refine ⟨?_, ?_, ?_⟩
  · exact (watch_lifecycle_behavior.1 cfgEx appStopped rfl).1
  · exact (watch_lifecycle_behavior.2.1 appRunning 0 (by decide)).1
  · exact (watch_lifecycle_behavior.2.2 appNoBase rfl).1

/-- C9: directory preparation is idempotent — running it twice equals
running it once and raises nothing (the function is total, mirroring
makedirs with exist_ok), the produced tree has no duplicate entries, and
it contains one category subdirectory under the sorted root per distinct
extension-map value. -/
theorem prepare_directories_idempotent (cfg : Config) (base_dir : String)
    (paths : List String) :
    prepare_directories cfg base_dir (prepare_directories cfg base_dir paths) =
      prepare_directories cfg base_dir paths ∧
    (paths.Nodup → (prepare_directories cfg base_dir paths).Nodup) ∧
    (∀ v ∈ cfg.extensions.map Prod.snd,
      joinPath (joinPath base_dir cfg.sorted_directory) v ∈
        prepare_directories cfg base_dir paths) :=
  ⟨prepare_directories_idem cfg base_dir paths,
   prepare_directories_nodup cfg base_dir paths,
   fun v hv => prepare_directories_mem_cat cfg base_dir paths v hv⟩

/-- Witness for C9: preparation over an empty filesystem with the
concrete configuration. -/
theorem prepare_directories_idempotent_witness :
    prepare_directories cfgEx "/base" (prepare_directories cfgEx "/base" []) =
      prepare_directories cfgEx "/base" [] ∧
    (prepare_directories cfgEx "/base" []).Nodup ∧
    joinPath (joinPath "/base" "sorted") "images" ∈ prepare_directories cfgEx "/base" [] :=
  ⟨(prepare_directories_idempotent cfgEx "/base" []).1,
   (prepare_directories_idempotent cfgEx "/base" []).2.1 (by decide),
   (prepare_directories_idempotent cfgEx "/base" []).2.2 "images" (by decide)⟩

/-- C10: classification looks only at the lowercased final dot-suffix:
for a multi-suffix name only the last suffix is looked up (for the
concrete archive.tar.gz path the lookup key is exactly .gz, whatever the
map); a dotfile like .gitignore splits to the empty extension; two paths
with the same lowercased suffix classify identically; and when the empty
string is not a key, a path with empty extension is left in place with a
warning and no archive call. -/
theorem classification_final_suffix :
    (∀ m : List (String × String),
      classify m "/dir/archive.tar.gz" = List.lookup ".gz" m) ∧
    splitext "/dir/.gitignore" = ("/dir/.gitignore", "") ∧
    (∀ (m : List (String × String)) (s1 s2 : String),
      strToLower (splitext s1).2 = strToLower (splitext s2).2 →
      classify m s1 = classify m s2) ∧
    (∀ (w : World) (src base_dir : String) (m : List (String × String)) (sd ad : String),
      (splitext src).2 = "" → List.lookup "" m = none →
      move_file w src base_dir m sd ad =
        { world := w,
          logs := [{ level := LogLevel.warning, msg := "Unknown / unsupported file type" }],
          archiveCalls := [] }) := by
  refine ⟨?_, by decide, ?_, ?_⟩
  · intro m
    show List.lookup (strToLower (splitext "/dir/archive.tar.gz").2) m = _
    rw [show strToLower (splitext "/dir/archive.tar.gz").2 = ".gz" from by decide]
  · intro m s1 s2 h
    simp only [classify, h]
  · intro w src base_dir m sd ad h1 h2
    apply move_file_skip
    show List.lookup (strToLower (splitext src).2) m = none
    rw [h1]
    exact h2

/-- Witness for C10: a dotfile is skipped when the empty extension is not
mapped. -/
theorem classification_final_suffix_witness :
    move_file wOk "/b/in/.gitignore" "/b" [(".jpg", "images")] "sorted" "archive" =
      { world := wOk,
        logs := [{ level := LogLevel.warning, msg := "Unknown / unsupported file type" }],
        archiveCalls := [] } :=
  classification_final_suffix.2.2.2 wOk "/b/in/.gitignore" "/b" [(".jpg", "images")]
    "sorted" "archive" (by decide) (by decide)
